import Mathlib

/-!
Verification of the trae-autonomous-workflow execution/orchestration core
against its natural-language specification.

Shallow embedding of three source modules:
  * `autonomous-agent/core/scenario_selector.py` — the 5-scenario decision
    tree (`ScenarioSelector.select`, `get_scenario_by_type`);
  * `.trae/workflows/workflow_manager_v2.py` — the workflow engine
    (`execute_step`, `execute_workflow`, `_run_hooks`);
  * `autonomous-agent/core/swarm.py` — the swarm task queue
    (`create_swarm_session`, `get_parallel_subtasks`, `complete_task`).

External effects (subprocess, file system, clock) are modelled as an
explicit environment record of oracles; the sqlite store is modelled as
explicit lists of rows; uuid generation is modelled as a fresh-id counter.
-/

namespace Spec2Proof

/-! ## Scenario selector (`scenario_selector.py`) -/

/-- `ScenarioType` enum from `scenario_selector.py` (5 members). -/
inductive ScenarioType where
  | prompt_enhancement
  | skill_reuse
  | plan_review
  | lead_member
  | composite
deriving DecidableEq, Repr

/-- `ScenarioInfo` dataclass: immutable descriptor of one execution
strategy.  `best_practices` defaults to the empty list as in the source. -/
structure ScenarioInfo where
  scenario_type : ScenarioType
  name : String
  description : String
  complexity_range : Nat × Nat
  requires_confirmation : Bool := true
  max_agents : Nat := 1
  estimated_steps : Nat := 1
  best_practices : List String := []
deriving DecidableEq, Repr

/-- The static `ScenarioSelector.SCENARIOS` dictionary, one entry per
`ScenarioType`; field values transcribed from the source literals. -/
def SCENARIOS : ScenarioType → ScenarioInfo
  | .prompt_enhancement =>
      { scenario_type := .prompt_enhancement
        name := "提示增强"
        description := "任务简单，增强提示后直接执行"
        complexity_range := (1, 2)
        requires_confirmation := false
        max_agents := 1
        estimated_steps := 1 }
  | .skill_reuse =>
      { scenario_type := .skill_reuse
        name := "Skill复用"
        description := "有现成Skill可用，直接调用执行"
        complexity_range := (3, 5)
        requires_confirmation := false
        max_agents := 1
        estimated_steps := 2 }
  | .plan_review =>
      { scenario_type := .plan_review
        name := "计划+评审"
        description := "出计划→确认→执行→Review"
        complexity_range := (3, 5)
        requires_confirmation := false
        max_agents := 3
        estimated_steps := 4 }
  | .lead_member =>
      { scenario_type := .lead_member
        name := "Lead-Member"
        description := "Leader协调，Member并行执行"
        complexity_range := (6, 10)
        requires_confirmation := true
        max_agents := 5
        estimated_steps := 5 }
  | .composite =>
      { scenario_type := .composite
        name := "复合编排"
        description := "动态组合多种场景"
        complexity_range := (6, 10)
        requires_confirmation := true
        max_agents := 10
        estimated_steps := 7 }

/-- `ScenarioSelector.select(complexity, task_description, has_matching_skill)`.
The Python parameter `has_matching_skill` defaults to `None`; `if
has_matching_skill:` is the truthiness test, true exactly for the value
`True`, so it is modelled as `Option Bool` tested against `some true`.
`complexity` is a Python int, modelled as `Int`. -/
def select (complexity : Int) (_task_description : String)
    (has_matching_skill : Option Bool) : ScenarioInfo :=
  if complexity ≤ 2 then
    SCENARIOS .prompt_enhancement
  else if complexity ≤ 5 then
    if has_matching_skill = some true then
      SCENARIOS .skill_reuse
    else
      SCENARIOS .plan_review
  else
    SCENARIOS .lead_member

/-- `ScenarioSelector.get_scenario_by_type`: `dict.get`, returning `None`
for a missing key; the dictionary covers every enum member, so the lookup
always succeeds. -/
def get_scenario_by_type (scenario_type : ScenarioType) : Option ScenarioInfo :=
  some (SCENARIOS scenario_type)

/-! ## Swarm queue (`swarm.py`)

The sqlite store is modelled as explicit lists of rows (insertion order);
`uuid.uuid4()` is modelled as drawing the next value of a fresh-id counter
(`Nat` ids), which captures exactly the property the source relies on:
generated identifiers never collide with existing rows.  Timestamps are
irrelevant to the claims and are filled with a fixed placeholder string. -/

/-- One element of the `subtasks` argument of `create_swarm_session`: a dict
with a required `type` key and optional `priority`, `goal`, `context` keys
(the keys the source reads via `subtask['type']` / `subtask.get(...)` /
`payload.get(...)`). -/
structure Subtask where
  type : String
  priority : Option Int := none
  goal : Option String := none
  context : Option String := none
deriving DecidableEq, Repr

/-- A row of the `tasks` table.  `payload` holds `json.dumps(subtask)`,
modelled as the structured `Subtask` itself; `result` holds the serialized
completion result. -/
structure TaskRow where
  task_id : Nat
  parent_id : Option Nat
  status : String
  priority : Int
  worker_type : String
  payload : Subtask
  result : Option String
  created_at : String
  completed_at : Option String
deriving DecidableEq, Repr

/-- A row of the `swarm_sessions` table. -/
structure SessionRow where
  session_id : Nat
  main_task : String
  subtask_count : Nat
  completed_count : Nat
  status : String
  created_at : String
deriving DecidableEq, Repr

/-- The durable store of `SwarmOrchestrator`: the two tables plus the
fresh-id counter standing in for the uuid generator. -/
structure SwarmStore where
  tasks : List TaskRow
  swarm_sessions : List SessionRow
  nextId : Nat
deriving DecidableEq, Repr

/-- The empty store, as produced by `_init_db` on a fresh database file. -/
def SwarmStore.empty : SwarmStore := { tasks := [], swarm_sessions := [], nextId := 0 }

/-- The task rows inserted by the loop in `create_swarm_session`: one row
per subtask, status `pending`, `parent_id = sessionId`, priority defaulting
to 5, `worker_type = subtask['type']`, payload the serialized subtask.  Ids
are drawn consecutively from the fresh-id counter starting at `nid`. -/
def mkTaskRows (sid : Nat) : Nat → List Subtask → List TaskRow
  | _, [] => []
  | nid, st :: rest =>
      { task_id := nid
        parent_id := some sid
        status := "pending"
        priority := st.priority.getD 5
        worker_type := st.type
        payload := st
        result := none
        created_at := "now"
        completed_at := none } :: mkTaskRows sid (nid + 1) rest

/-- `SwarmOrchestrator.create_swarm_session(main_task, subtasks)`: insert one
session row (`subtask_count = len(subtasks)`, defaults `completed_count = 0`,
`status = 'running'`), then one task row per subtask; return the session id. -/
def create_swarm_session (store : SwarmStore) (main_task : String)
    (subtasks : List Subtask) : Nat × SwarmStore :=
  (store.nextId,
   { tasks := store.tasks ++ mkTaskRows store.nextId (store.nextId + 1) subtasks
     swarm_sessions := store.swarm_sessions ++
       [{ session_id := store.nextId
          main_task := main_task
          subtask_count := subtasks.length
          completed_count := 0
          status := "running"
          created_at := "now" }]
     nextId := store.nextId + 1 + subtasks.length })

/-- One element of the list returned by `get_parallel_subtasks`. -/
structure SubtaskView where
  task_id : Nat
  subagent_type : String
  goal : String
  context : String
deriving DecidableEq, Repr

/-- The dict built for one selected row in `get_parallel_subtasks`:
`{task_id, subagent_type, goal, context}` with `''` as the default for
missing goal/context keys of the deserialized payload. -/
def taskView (t : TaskRow) : SubtaskView :=
  { task_id := t.task_id
    subagent_type := t.worker_type
    goal := t.payload.goal.getD ""
    context := t.payload.context.getD "" }

/-- `SwarmOrchestrator.get_parallel_subtasks(session_id)`: select all task
rows with `parent_id = session_id` and `status = 'pending'`, deserializing
each payload into `{task_id, subagent_type, goal, context}`. -/
def get_parallel_subtasks (store : SwarmStore) (session_id : Nat) :
    List SubtaskView :=
  (store.tasks.filter fun t =>
      t.parent_id = some session_id ∧ t.status = "pending").map taskView

/-- The task-table update of `complete_task`, applied to every task row:
`UPDATE tasks SET status = 'completed', result = ?, completed_at = ? WHERE
task_id = ?`. -/
def completeRow (task_id : Nat) (result : String) (t : TaskRow) : TaskRow :=
  if t.task_id = task_id then
    { t with status := "completed", result := some result,
             completed_at := some "now" }
  else t

/-- The session-table update of `complete_task`, applied to every session
row: `UPDATE swarm_sessions SET completed_count = completed_count + 1 WHERE
session_id = ?` with the completed task's `parent_id` as the parameter (a
NULL parent matches no row). -/
def incrementParent (parent_id : Option Nat) (s : SessionRow) : SessionRow :=
  if parent_id = some s.session_id then
    { s with completed_count := s.completed_count + 1 }
  else s

/-- `SwarmOrchestrator.complete_task(task_id, result)`: UPDATE the task row
to status `completed` with the serialized result and a completion stamp;
then SELECT the task's `parent_id` and, if the SELECT returns a row
(`if row:` — true whenever the task exists, even with a NULL parent),
UPDATE the parent session's `completed_count` to `completed_count + 1`
(the UPDATE with a NULL parent matches no session row).  There is no guard
against the task already being completed. -/
def complete_task (store : SwarmStore) (task_id : Nat) (result : String) :
    SwarmStore :=
  match ((store.tasks.map (completeRow task_id result)).find?
      fun t => t.task_id == task_id) with
  | none => { store with tasks := store.tasks.map (completeRow task_id result) }
  | some row =>
      { store with
        tasks := store.tasks.map (completeRow task_id result)
        swarm_sessions := store.swarm_sessions.map (incrementParent row.parent_id) }

/-- Fold `complete_task` over a list of (task id, result) calls. -/
def complete_tasks (store : SwarmStore) : List (Nat × String) → SwarmStore
  | [] => store
  | (tid, r) :: rest => complete_tasks (complete_task store tid r) rest

/-- The session row with the given id, as `SELECT * FROM swarm_sessions
WHERE session_id = ?` would return it (`None` when no such row exists). -/
def sessionRowOf (store : SwarmStore) (session_id : Nat) : Option SessionRow :=
  store.swarm_sessions.find? fun s => s.session_id == session_id

/-- The `completed_count` column of the session row with the given id. -/
def completedOf (store : SwarmStore) (session_id : Nat) : Option Nat :=
  (sessionRowOf store session_id).map (·.completed_count)

/-- The `status` column of the session row with the given id. -/
def statusOf (store : SwarmStore) (session_id : Nat) : Option String :=
  (sessionRowOf store session_id).map (·.status)

/-- The `parent_id` column of the task row with the given id, as the SELECT
inside `complete_task` reads it. -/
def parentOf (store : SwarmStore) (task_id : Nat) : Option (Option Nat) :=
  (store.tasks.find? fun t => t.task_id == task_id).map (·.parent_id)

/-- Whether a `complete_task` call for `task_id` increments the counter of
session `session_id`: the task row exists and its parent is that session. -/
def belongsTo (store : SwarmStore) (session_id task_id : Nat) : Bool :=
  match parentOf store task_id with
  | some (some p) => p == session_id
  | _ => false

/-- Store well-formedness: every identifier already present (task ids,
parent references, session ids) is below the fresh-id counter.  This is the
property the source obtains from uuid generation: a freshly generated id
never equals an existing one. -/
def WFStore (s : SwarmStore) : Prop :=
  (∀ t ∈ s.tasks, t.task_id < s.nextId) ∧
  (∀ t ∈ s.tasks, ∀ p, t.parent_id = some p → p < s.nextId) ∧
  (∀ r ∈ s.swarm_sessions, r.session_id < s.nextId)

/-- Expected value of `get_parallel_subtasks` right after session creation:
one view per subtask, task ids drawn consecutively from `nid`. -/
def mkViews (nid : Nat) : List Subtask → List SubtaskView
  | [] => []
  | st :: rest =>
      { task_id := nid
        subagent_type := st.type
        goal := st.goal.getD ""
        context := st.context.getD "" } :: mkViews (nid + 1) rest

/-- Modelled from the spec: the spec describes `SwarmSession.status` as
*derived* from the counter — "`status` ∈ {running, completed} (derived:
completed when completed_count == subtask_count)".  No code under `src/`
computes this derived status; this definition follows the spec's words, for
comparison with the stored `status` column that the source maintains. -/
def specDerivedStatus (row : SessionRow) : String :=
  if row.completed_count = row.subtask_count then "completed" else "running"

/-! ## Workflow engine (`workflow_manager_v2.py`) -/

/-- Outcome of `subprocess.run` as `execute_step` observes it: the process
finished with an exit code, captured stdout and stderr, or `TimeoutExpired`
was raised (carrying the exception text, which the `except` clause turns
into the step error). -/
inductive CmdOutcome where
  | finished (returncode : Int) (stdout stderr : String)
  | timeout (msg : String)

/-- Outcome of writing the document in `generate_document`: success, or an
I/O exception with its text. -/
inductive WriteOutcome where
  | ok
  | ioError (msg : String)

/-- Environment of external effects consulted by `execute_step`: the
subprocess runner, the document writer, the file-existence test of the
`verify` action, the date used in the default document path, and the
timestamp used for `end_time`. -/
structure Env where
  runCommand : String → Int → CmdOutcome
  writeFile : String → String → WriteOutcome
  fileExists : String → Bool
  dateStr : String
  nowStr : String

/-- The `params` mapping of a step: exactly the keys the source reads, each
optional because it is accessed with `params.get(...)`. -/
structure Params where
  command : Option String := none
  timeout : Option Int := none
  output : Option String := none
  content : Option String := none
  message : Option String := none
  type : Option String := none
  path : Option String := none
deriving DecidableEq, Repr

/-- A workflow step definition, read via `step.get('id')`, `step.get('name')`,
`step.get('action')`, `step.get('params', {})`. -/
structure Step where
  id : Option String := none
  name : Option String := none
  action : Option String := none
  params : Params := {}
deriving DecidableEq, Repr

/-- `step.get('id', step.get('name', 'unknown'))`. -/
def stepId (step : Step) : String :=
  step.id.getD (step.name.getD "unknown")

/-- The result dict built by `execute_step`. -/
structure StepResult where
  step_id : String
  action : String
  success : Bool
  output : Option String
  error : Option String
deriving DecidableEq, Repr

/-- `WorkflowManager.execute_step` for an existing session (the
session-not-found branch returns an error dict before any of this and the
claims only concern existing sessions).  Dispatch on the action string with
the source's branch order; the surrounding `try/except` converts an
exception (timeout, I/O failure) into a failed result with the exception
text as error. -/
def execute_step (env : Env) (step : Step) : StepResult :=
  if step.action.getD "unknown" = "run_command" then
    match env.runCommand (step.params.command.getD "")
        (step.params.timeout.getD 60) with
    | .finished rc out err =>
        { step_id := stepId step, action := "run_command",
          success := rc == 0, output := some out,
          error := if rc == 0 then none else some err }
    | .timeout msg =>
        { step_id := stepId step, action := "run_command",
          success := false, output := none, error := some msg }
  else if step.action.getD "unknown" = "generate_document" then
    match env.writeFile
        (step.params.output.getD ("output/doc-" ++ env.dateStr ++ ".md"))
        (step.params.content.getD "") with
    | .ok =>
        { step_id := stepId step, action := "generate_document",
          success := true,
          output := some (step.params.output.getD
            ("output/doc-" ++ env.dateStr ++ ".md")),
          error := none }
    | .ioError msg =>
        { step_id := stepId step, action := "generate_document",
          success := false, output := none, error := some msg }
  else if step.action.getD "unknown" = "notify" then
    { step_id := stepId step, action := "notify", success := true,
      output := some (step.params.message.getD ""), error := none }
  else if step.action.getD "unknown" = "verify" then
    if step.params.type.getD "file_exists" = "file_exists" then
      { step_id := stepId step, action := "verify",
        success := env.fileExists (step.params.path.getD ""),
        output := some ("文件存在: " ++
          (if env.fileExists (step.params.path.getD "") then "True" else "False")),
        error := none }
    else
      { step_id := stepId step, action := "verify", success := true,
        output := none, error := none }
  else
    { step_id := stepId step, action := step.action.getD "unknown",
      success := false, output := none,
      error := some ("未知操作类型: " ++ step.action.getD "unknown") }

/-- One registered hook callback, modelled by its only engine-visible
behaviour: whether `callback(context)` raises.  `_run_hooks` wraps each
call in `try/except`, so a raising callback is logged and the loop
continues with the next callback. -/
structure HookCb where
  raises : Bool
deriving DecidableEq, Repr

/-- The four hook callback lists of `WorkflowManager.hooks`. -/
structure Hooks where
  pre_execute : List HookCb := []
  post_execute : List HookCb := []
  on_error : List HookCb := []
  on_success : List HookCb := []
deriving DecidableEq, Repr

/-- A workflow session record: the fields of the dict created by
`create_session` that `execute_workflow` reads and writes
(`workflow_steps` stands for `session["workflow"]["steps"]`; `outputs` and
`errors` keep insertion order). -/
structure Session where
  id : String
  workflow_steps : List Step
  status : String
  steps_completed : List String
  steps_failed : List String
  outputs : List (String × Option String)
  errors : List (String × Option String)
  end_time : Option String
deriving DecidableEq, Repr

/-- `WorkflowManager.create_session`: initializes the session record in
`created` status with empty step bookkeeping (the session id generation and
workflow-definition lookup are external; the loaded step list is a
parameter). -/
def create_session (id : String) (steps : List Step) : Session :=
  { id := id, workflow_steps := steps, status := "created",
    steps_completed := [], steps_failed := [], outputs := [], errors := [],
    end_time := none }

/-- Observable lifecycle events of one `execute_workflow` run, in order: a
step execution attempt, one `_run_hooks` sweep over a hook set (recording
the session status the callbacks observe and, per callback in registration
order, whether it raised — every exception being caught), and the
`_save_session` persistence call with the status it persists. -/
inductive Event where
  | stepAttempt (step_id : String)
  | hookSet (event : String) (statusSeen : String) (raised : List Bool)
  | saved (status : String)
deriving DecidableEq, Repr

/-- `WorkflowManager._run_hooks`: iterate all callbacks registered for the
event with `try/except` around each call; a raising callback is logged and
never aborts the sweep or the workflow. -/
def run_hooks (event : String) (cbs : List HookCb) (session : Session) :
    Event :=
  .hookSet event session.status (cbs.map (·.raises))

/-- The `for step in steps` loop of `execute_workflow`: on step success
append the step id to `steps_completed` and its output to `outputs`; on
step failure append to `steps_failed` and `errors`, set the session status
to `failed`, run the `on_error` hook set and `break` (remaining steps are
never attempted). -/
def executeSteps (env : Env) (hooks : Hooks) :
    List Step → Session → List Event → Session × List Event
  | [], session, evs => (session, evs)
  | step :: rest, session, evs =>
      if (execute_step env step).success then
        executeSteps env hooks rest
          { session with
            steps_completed :=
              session.steps_completed ++ [(execute_step env step).step_id]
            outputs := session.outputs ++
              [((execute_step env step).step_id, (execute_step env step).output)] }
          (evs ++ [.stepAttempt (execute_step env step).step_id])
      else
        ({ session with
           steps_failed :=
             session.steps_failed ++ [(execute_step env step).step_id]
           errors := session.errors ++
             [((execute_step env step).step_id, (execute_step env step).error)]
           status := "failed" },
         evs ++ [.stepAttempt (execute_step env step).step_id,
           run_hooks "on_error" hooks.on_error
             { session with
               steps_failed :=
                 session.steps_failed ++ [(execute_step env step).step_id]
               errors := session.errors ++
                 [((execute_step env step).step_id, (execute_step env step).error)]
               status := "failed" }])

/-- The summary dict returned by `execute_workflow`. -/
structure Summary where
  success : Bool
  session_id : String
  status : String
  steps_completed : Nat
  steps_failed : Nat
deriving DecidableEq, Repr

/-- The full observable outcome of one `execute_workflow` call: returned
summary, final session record, event trace. -/
structure WfRun where
  summary : Summary
  session : Session
  trace : List Event
deriving Repr

/-- Tail of `execute_workflow` after the step loop: promote a session still
`running` to `completed` with an end timestamp and run the `on_success`
hook set; then `_save_session`; then run the `post_execute` hook set; then
build the summary. -/
def finalize (env : Env) (hooks : Hooks) (p : Session × List Event) : WfRun :=
  if p.1.status = "running" then
    { summary :=
        { success := "completed" == "completed"
          session_id := p.1.id
          status := "completed"
          steps_completed := p.1.steps_completed.length
          steps_failed := p.1.steps_failed.length }
      session := { p.1 with status := "completed", end_time := some env.nowStr }
      trace := (p.2 ++
          [run_hooks "on_success" hooks.on_success
            { p.1 with status := "completed", end_time := some env.nowStr }] ++
          [.saved "completed"]) ++
        [run_hooks "post_execute" hooks.post_execute
          { p.1 with status := "completed", end_time := some env.nowStr }] }
  else
    { summary :=
        { success := p.1.status == "completed"
          session_id := p.1.id
          status := p.1.status
          steps_completed := p.1.steps_completed.length
          steps_failed := p.1.steps_failed.length }
      session := p.1
      trace := (p.2 ++ [.saved p.1.status]) ++
        [run_hooks "post_execute" hooks.post_execute p.1] }

/-- `WorkflowManager.execute_workflow` on an existing session.  Source
order, lines 166–215: run the `pre_execute` hook sweep first — the session
is still in its pre-run status at that point — then set the status to
`running`, then iterate the steps fail-fast, then promote / persist / run
`post_execute` and return the summary. -/
def execute_workflow (env : Env) (hooks : Hooks) (session0 : Session) :
    WfRun :=
  finalize env hooks
    (executeSteps env hooks session0.workflow_steps
      { session0 with status := "running" }
      [run_hooks "pre_execute" hooks.pre_execute session0])

/-- Number of `_run_hooks` sweeps for a given event name in a trace. -/
def countHookSet (trace : List Event) (event : String) : Nat :=
  trace.countP fun e =>
    match e with
    | .hookSet e' _ _ => e' == event
    | _ => false

/-- Number of `_save_session` calls in a trace. -/
def countSaved (trace : List Event) : Nat :=
  trace.countP fun e =>
    match e with
    | .saved _ => true
    | _ => false

/-- The step ids attempted during a run, in order. -/
def attempts (trace : List Event) : List String :=
  trace.filterMap fun e =>
    match e with
    | .stepAttempt s => some s
    | _ => none

/-- Hooks with every callback replaced by a non-raising one (same number of
callbacks per event). -/
def clearRaises (hooks : Hooks) : Hooks :=
  { pre_execute := hooks.pre_execute.map fun _ => { raises := false }
    post_execute := hooks.post_execute.map fun _ => { raises := false }
    on_error := hooks.on_error.map fun _ => { raises := false }
    on_success := hooks.on_success.map fun _ => { raises := false } }

/-- An event with the per-callback raise flags normalized away (the flag
list keeps its length, so sweeps remain comparable callback-for-callback). -/
def eraseRaised : Event → Event
  | .hookSet e st raised => .hookSet e st (raised.map fun _ => false)
  | e => e

/-- The callback list registered under a hook event name (the keys of
`WorkflowManager.hooks`; `_run_hooks` uses `self.hooks.get(event, [])`). -/
def hooksFor (hooks : Hooks) : String → List HookCb
  | "pre_execute" => hooks.pre_execute
  | "post_execute" => hooks.post_execute
  | "on_error" => hooks.on_error
  | "on_success" => hooks.on_success
  | _ => []

/-! ### Concrete swarm scenarios (used to settle the claims on explicit
inputs) -/

/-- Three subtasks, as in the spec's three-worker test scenario. -/
def c1Subtasks : List Subtask :=
  [{ type := "frontend" }, { type := "backend" }, { type := "test" }]

/-- Store after creating a 3-subtask session on a fresh database and then
calling `complete_task` once for each of the three tasks (session id 0,
task ids 1, 2, 3). -/
def c1Final : SwarmStore :=
  complete_tasks (create_swarm_session SwarmStore.empty "main" c1Subtasks).2
    [(1, "r1"), (2, "r2"), (3, "r3")]

/-- Store after creating a 1-subtask session on a fresh database and then
calling `complete_task` twice for the same task id (session id 0, task
id 1). -/
def c2Final : SwarmStore :=
  complete_tasks
    (create_swarm_session SwarmStore.empty "main" [{ type := "solo" }]).2
    [(1, "r"), (1, "r")]

/-- A concrete environment whose file-existence oracle answers `false`. -/
def falseEnv : Env :=
  { runCommand := fun _ _ => .finished 0 "" ""
    writeFile := fun _ _ => .ok
    fileExists := fun _ => false
    dateStr := "20250101"
    nowStr := "now" }

/-- A concrete environment whose file-existence oracle answers `true`. -/
def trueEnv : Env :=
  { runCommand := fun _ _ => .finished 1 "" "boom"
    writeFile := fun _ _ => .ioError "io"
    fileExists := fun _ => true
    dateStr := "20250102"
    nowStr := "later" }

/-- A step that always succeeds (`notify`). -/
def okStep : Step := { id := some "A", action := some "notify" }

/-- A step that always fails (unrecognized action kind). -/
def failStep : Step := { id := some "B", action := some "boom" }

/-- A `verify` step whose params carry a `type` other than `file_exists`. -/
def verifyStep : Step :=
  { id := some "V", action := some "verify", params := { type := some "custom" } }

/-! ### Swarm queue lemmas -/

theorem completeRow_task_id (tid : Nat) (r : String) (t : TaskRow) :
    (completeRow tid r t).task_id = t.task_id := by
  unfold completeRow; split <;> rfl

theorem completeRow_parent_id (tid : Nat) (r : String) (t : TaskRow) :
    (completeRow tid r t).parent_id = t.parent_id := by
  unfold completeRow; split <;> rfl

theorem incrementParent_session_id (p : Option Nat) (s : SessionRow) :
    (incrementParent p s).session_id = s.session_id := by
  unfold incrementParent; split <;> rfl

theorem complete_task_tasks (s : SwarmStore) (tid : Nat) (r : String) :
    (complete_task s tid r).tasks = s.tasks.map (completeRow tid r) := by
  unfold complete_task
  split <;> rfl

theorem parentOf_complete_task (s : SwarmStore) (tid0 : Nat) (r : String)
    (tid : Nat) : parentOf (complete_task s tid0 r) tid = parentOf s tid := by
  have h1 : ((fun t : TaskRow => t.task_id == tid) ∘ completeRow tid0 r)
      = fun t : TaskRow => t.task_id == tid := by
    funext t; simp [completeRow_task_id]
  have h2 : ((fun t : TaskRow => t.parent_id) ∘ completeRow tid0 r)
      = fun t : TaskRow => t.parent_id := by
    funext t; simp [completeRow_parent_id]
  unfold parentOf
  rw [complete_task_tasks, List.find?_map, h1, Option.map_map, h2]

theorem belongsTo_complete_task (s : SwarmStore) (tid0 : Nat) (r : String)
    (sid tid : Nat) :
    belongsTo (complete_task s tid0 r) sid tid = belongsTo s sid tid := by
  unfold belongsTo
  rw [parentOf_complete_task]

theorem sessionRowOf_complete_task (s : SwarmStore) (tid : Nat) (r : String)
    (sid : Nat) :
    sessionRowOf (complete_task s tid r) sid =
      (sessionRowOf s sid).map (fun row =>
        if belongsTo s sid tid then
          { row with completed_count := row.completed_count + 1 }
        else row) := by
  have hp : ((fun t : TaskRow => t.task_id == tid) ∘ completeRow tid r)
      = fun t : TaskRow => t.task_id == tid := by
    funext t; simp [completeRow_task_id]
  have hfind : ((s.tasks.map (completeRow tid r)).find? fun t => t.task_id == tid)
      = (s.tasks.find? fun t => t.task_id == tid).map (completeRow tid r) := by
    rw [List.find?_map, hp]
  unfold complete_task
  rw [hfind]
  cases ht : s.tasks.find? fun t => t.task_id == tid with
  | none =>
      have hb : belongsTo s sid tid = false := by
        unfold belongsTo parentOf; rw [ht]; rfl
      rw [hb]
      simp [sessionRowOf]
  | some t0 =>
      have hb : belongsTo s sid tid =
          match t0.parent_id with
          | some p => p == sid
          | none => false := by
        unfold belongsTo parentOf
        rw [ht]
        simp only [Option.map_some']
        cases t0.parent_id <;> rfl
      simp only [Option.map_some']
      unfold sessionRowOf
      rw [List.find?_map]
      have hpred : ((fun s : SessionRow => s.session_id == sid)
          ∘ incrementParent (completeRow tid r t0).parent_id)
          = fun s : SessionRow => s.session_id == sid := by
        funext x; simp [incrementParent_session_id]
      rw [hpred]
      cases hf : s.swarm_sessions.find? fun s => s.session_id == sid with
      | none => rfl
      | some sr =>
          have hsid : sr.session_id = sid := by
            have := List.find?_some hf
            simpa using this
          simp only [Option.map_some']
          congr 1
          rw [completeRow_parent_id, incrementParent, hsid, hb]
          cases hp : t0.parent_id with
          | none => simp
          | some p =>
              by_cases hps : p = sid <;> simp [hps]

theorem sessionRowOf_complete_tasks (sid : Nat) :
    ∀ (L : List (Nat × String)) (s : SwarmStore),
    sessionRowOf (complete_tasks s L) sid =
      (sessionRowOf s sid).map (fun row =>
        { row with completed_count :=
            row.completed_count + L.countP (fun pr => belongsTo s sid pr.1) })
  | [], s => by
      cases hf : sessionRowOf s sid <;> simp [complete_tasks, hf]
  | (tid, r) :: rest, s => by
      rw [complete_tasks]
      rw [sessionRowOf_complete_tasks sid rest (complete_task s tid r)]
      rw [sessionRowOf_complete_task]
      have hbcong : (fun pr : Nat × String =>
          belongsTo (complete_task s tid r) sid pr.1)
          = fun pr : Nat × String => belongsTo s sid pr.1 := by
        funext pr; rw [belongsTo_complete_task]
      rw [hbcong, Option.map_map]
      cases hf : sessionRowOf s sid with
      | none => rfl
      | some row =>
          rw [Option.map_some', Option.map_some']
          simp only [Function.comp_apply]
          cases hb : belongsTo s sid tid <;>
            simp [hb, List.countP_cons, SessionRow.mk.injEq] <;> omega

theorem find?_mkTaskRows_lt (sid : Nat) :
    ∀ (nid tid : Nat) (l : List Subtask), tid < nid →
    (mkTaskRows sid nid l).find? (fun t => t.task_id == tid) = none
  | _, _, [], _ => rfl
  | nid, tid, st :: rest, h => by
      rw [mkTaskRows, List.find?_cons_of_neg]
      · exact find?_mkTaskRows_lt sid (nid + 1) tid rest (Nat.lt_succ_of_lt h)
      · simp only [beq_iff_eq]
        omega

theorem find?_mkTaskRows_ge (sid : Nat) :
    ∀ (nid tid : Nat) (l : List Subtask), nid + l.length ≤ tid →
    (mkTaskRows sid nid l).find? (fun t => t.task_id == tid) = none
  | _, _, [], _ => rfl
  | nid, tid, st :: rest, h => by
      rw [mkTaskRows, List.find?_cons_of_neg]
      · exact find?_mkTaskRows_ge sid (nid + 1) tid rest
          (by simp only [List.length_cons] at h; omega)
      · simp only [beq_iff_eq]
        simp only [List.length_cons] at h
        omega

theorem find?_mkTaskRows_mem (sid : Nat) :
    ∀ (nid : Nat) (l : List Subtask) (i : Nat), i < l.length →
    ∃ row, (mkTaskRows sid nid l).find? (fun t => t.task_id == nid + i) = some row
      ∧ row.parent_id = some sid
  | nid, [], i, hi => absurd hi (by simp)
  | nid, st :: rest, 0, _ => by
      rw [mkTaskRows]
      exact ⟨_, List.find?_cons_of_pos _ (by simp), rfl⟩
  | nid, st :: rest, i + 1, hi => by
      obtain ⟨row, hfind, hpar⟩ :=
        find?_mkTaskRows_mem sid (nid + 1) rest i
          (by simp only [List.length_cons] at hi; omega)
      refine ⟨row, ?_, hpar⟩
      rw [mkTaskRows, List.find?_cons_of_neg]
      · have : nid + 1 + i = nid + (i + 1) := by omega
        rw [this] at hfind
        exact hfind
      · simp only [beq_iff_eq]
        omega

theorem sessionRowOf_create (store : SwarmStore) (main : String)
    (l : List Subtask) (hwf : WFStore store) :
    sessionRowOf (create_swarm_session store main l).2 store.nextId =
      some { session_id := store.nextId, main_task := main,
             subtask_count := l.length, completed_count := 0,
             status := "running", created_at := "now" } := by
  unfold create_swarm_session sessionRowOf
  rw [List.find?_append]
  have hnone : (store.swarm_sessions.find? fun s => s.session_id == store.nextId)
      = none := by
    rw [List.find?_eq_none]
    intro x hx
    simp only [beq_iff_eq]
    exact Nat.ne_of_lt (hwf.2.2 x hx)
  rw [hnone]
  simp

theorem belongsTo_create (store : SwarmStore) (main : String)
    (l : List Subtask) (hwf : WFStore store) (tid : Nat) :
    belongsTo (create_swarm_session store main l).2 store.nextId tid =
      decide (store.nextId + 1 ≤ tid ∧ tid < store.nextId + 1 + l.length) := by
  unfold belongsTo parentOf create_swarm_session
  rw [List.find?_append]
  by_cases hin : store.nextId + 1 ≤ tid ∧ tid < store.nextId + 1 + l.length
  · have hold : (store.tasks.find? fun t => t.task_id == tid) = none := by
      rw [List.find?_eq_none]
      intro x hx
      simp only [beq_iff_eq]
      have := hwf.1 x hx
      omega
    obtain ⟨row, hfind, hpar⟩ :=
      find?_mkTaskRows_mem store.nextId (store.nextId + 1) l
        (tid - (store.nextId + 1)) (by omega)
    have heq : store.nextId + 1 + (tid - (store.nextId + 1)) = tid := by omega
    rw [heq] at hfind
    rw [hold, Option.none_or, hfind, Option.map_some', hpar]
    simp [hin]
  · have hmk : ((mkTaskRows store.nextId (store.nextId + 1) l).find?
        fun t => t.task_id == tid) = none := by
      rcases Nat.lt_or_ge tid (store.nextId + 1) with h | h
      · exact find?_mkTaskRows_lt _ _ _ _ h
      · exact find?_mkTaskRows_ge _ _ _ _ (by omega)
    rw [hmk, Option.or_none]
    cases hold : store.tasks.find? fun t => t.task_id == tid with
    | none => simp [hin]
    | some t0 =>
        have hmem := List.mem_of_find?_eq_some hold
        rw [Option.map_some']
        cases hp : t0.parent_id with
        | none => simp [hin]
        | some p =>
            have hplt := hwf.2.1 t0 hmem p hp
            simp only [beq_iff_eq]
            have : p ≠ store.nextId := by omega
            simp [hin, this]

theorem length_mkTaskRows (sid : Nat) :
    ∀ (nid : Nat) (l : List Subtask), (mkTaskRows sid nid l).length = l.length
  | _, [] => rfl
  | nid, _ :: rest => by
      rw [mkTaskRows, List.length_cons, List.length_cons,
        length_mkTaskRows sid (nid + 1) rest]

theorem mkTaskRows_fields (sid : Nat) :
    ∀ (nid : Nat) (l : List Subtask), ∀ t ∈ mkTaskRows sid nid l,
    t.status = "pending" ∧ t.parent_id = some sid ∧
      nid ≤ t.task_id ∧ t.task_id < nid + l.length
  | nid, [], t, ht => by simp [mkTaskRows] at ht
  | nid, st :: rest, t, ht => by
      rw [mkTaskRows] at ht
      rcases List.mem_cons.mp ht with hh | hr
      · subst hh
        refine ⟨rfl, rfl, Nat.le_refl _, ?_⟩
        simp only [List.length_cons]
        omega
      · obtain ⟨h1, h2, h3, h4⟩ := mkTaskRows_fields sid (nid + 1) rest t hr
        refine ⟨h1, h2, by omega, ?_⟩
        simp only [List.length_cons]
        omega

theorem mkTaskRows_map_payload (sid : Nat) :
    ∀ (nid : Nat) (l : List Subtask),
    (mkTaskRows sid nid l).map (·.payload) = l
  | _, [] => rfl
  | nid, st :: rest => by
      rw [mkTaskRows, List.map_cons, mkTaskRows_map_payload sid (nid + 1) rest]

theorem map_taskView_mkTaskRows (sid : Nat) :
    ∀ (nid : Nat) (l : List Subtask),
    (mkTaskRows sid nid l).map taskView = mkViews nid l
  | _, [] => rfl
  | nid, st :: rest => by
      rw [mkTaskRows, List.map_cons, mkViews,
        map_taskView_mkTaskRows sid (nid + 1) rest]
      rfl

theorem length_mkViews :
    ∀ (nid : Nat) (l : List Subtask), (mkViews nid l).length = l.length
  | _, [] => rfl
  | nid, _ :: rest => by
      rw [mkViews, List.length_cons, List.length_cons,
        length_mkViews (nid + 1) rest]

theorem completeRow_ne (tid : Nat) (r : String) (t : TaskRow)
    (h : ¬ t.task_id = tid) : completeRow tid r t = t := by
  rw [completeRow, if_neg h]

theorem completeRow_eq (tid : Nat) (r : String) (t : TaskRow)
    (h : t.task_id = tid) : completeRow tid r t =
      { t with status := "completed", result := some r,
               completed_at := some "now" } := by
  rw [completeRow, if_pos h]

theorem mkTaskRows_map_completeRow_lt (sid : Nat) (r : String) :
    ∀ (l : List Subtask) (nid tid : Nat), tid < nid →
    (mkTaskRows sid nid l).map (completeRow tid r) = mkTaskRows sid nid l
  | [], _, _, _ => rfl
  | st :: rest, nid, tid, h => by
      rw [mkTaskRows, List.map_cons,
        mkTaskRows_map_completeRow_lt sid r rest (nid + 1) tid (by omega),
        completeRow_ne tid r _ (by simp; omega)]

theorem filter_pending_mkTaskRows (sid : Nat) (nid : Nat) (l : List Subtask) :
    ((mkTaskRows sid nid l).filter fun t =>
        t.parent_id = some sid ∧ t.status = "pending")
      = mkTaskRows sid nid l := by
  rw [List.filter_eq_self]
  intro t ht
  obtain ⟨h1, h2, _, _⟩ := mkTaskRows_fields sid nid l t ht
  simp [h1, h2]

theorem filter_ne_mkTaskRows_lt (sid : Nat) :
    ∀ (l : List Subtask) (nid tid : Nat), tid < nid →
    ((mkTaskRows sid nid l).filter fun t => ¬ t.task_id = tid)
      = mkTaskRows sid nid l := by
  intro l nid tid h
  rw [List.filter_eq_self]
  intro t ht
  obtain ⟨_, _, h3, _⟩ := mkTaskRows_fields sid nid l t ht
  simp
  omega

theorem completed_filter_mkTaskRows (sid : Nat) (r : String) :
    ∀ (l : List Subtask) (nid i : Nat), i < l.length →
    ((mkTaskRows sid nid l).map (completeRow (nid + i) r)).filter
        (fun t => t.parent_id = some sid ∧ t.status = "pending")
      = (mkTaskRows sid nid l).filter fun t => ¬ t.task_id = nid + i
  | [], _, i, hi => by simp at hi
  | st :: rest, nid, 0, _ => by
      rw [mkTaskRows, List.map_cons, List.filter_cons, List.filter_cons,
        completeRow_eq (nid + 0) r _ (by simp),
        mkTaskRows_map_completeRow_lt sid r rest (nid + 1) (nid + 0)
          (by omega),
        filter_pending_mkTaskRows sid (nid + 1) rest,
        filter_ne_mkTaskRows_lt sid rest (nid + 1) (nid + 0) (by omega)]
      simp
  | st :: rest, nid, i + 1, hi => by
      rw [mkTaskRows, List.map_cons, List.filter_cons, List.filter_cons,
        completeRow_ne (nid + (i + 1)) r _ (by simp)]
      have harith : nid + 1 + i = nid + (i + 1) := by omega
      have ih := completed_filter_mkTaskRows sid r rest (nid + 1) i
        (by simp only [List.length_cons] at hi; omega)
      rw [harith] at ih
      rw [ih]
      simp

theorem length_filter_ne_mkTaskRows (sid : Nat) :
    ∀ (l : List Subtask) (nid i : Nat), i < l.length →
    ((mkTaskRows sid nid l).filter fun t => ¬ t.task_id = nid + i).length
      = l.length - 1
  | [], _, i, hi => by simp at hi
  | st :: rest, nid, 0, _ => by
      rw [mkTaskRows, List.filter_cons,
        filter_ne_mkTaskRows_lt sid rest (nid + 1) (nid + 0) (by omega)]
      simp [length_mkTaskRows]
  | st :: rest, nid, i + 1, hi => by
      rw [mkTaskRows, List.filter_cons]
      have harith : nid + 1 + i = nid + (i + 1) := by omega
      have ih := length_filter_ne_mkTaskRows sid rest (nid + 1) i
        (by simp only [List.length_cons] at hi; omega)
      rw [harith] at ih
      rw [if_pos (by simp)]
      rw [List.length_cons, ih]
      simp only [List.length_cons] at hi ⊢
      omega

theorem countP_range_perm (a n : Nat) (ns : List Nat)
    (hperm : ns.Perm (List.range' a n)) :
    ns.countP (fun t => decide (a ≤ t ∧ t < a + n)) = n := by
  rw [List.Perm.countP_eq _ hperm]
  have hall : ∀ x ∈ List.range' a n,
      (fun t => decide (a ≤ t ∧ t < a + n)) x = true := by
    intro x hx
    rw [List.mem_range'_1] at hx
    simpa using hx
  rw [List.countP_eq_length.mpr hall, List.length_range']

theorem countP_nodup_le (a n : Nat) (ns : List Nat) (hnd : ns.Nodup) :
    ns.countP (fun t => decide (a ≤ t ∧ t < a + n)) ≤ n := by
  rw [List.countP_eq_length_filter]
  have hsub : (ns.filter fun t => decide (a ≤ t ∧ t < a + n))
      ⊆ List.range' a n := by
    intro x hx
    rw [List.mem_filter] at hx
    rw [List.mem_range'_1]
    have := hx.2
    simpa using this
  have hsp := List.subperm_of_subset (hnd.filter _) hsub
  simpa using hsp.length_le

/-! ### Workflow engine lemmas -/

theorem execute_step_step_id (env : Env) (step : Step) :
    (execute_step env step).step_id = stepId step := by
  unfold execute_step
  repeat' split
  all_goals rfl

theorem executeSteps_all_success (env : Env) (hooks : Hooks) :
    ∀ (steps : List Step) (session : Session) (evs : List Event),
    (∀ st ∈ steps, (execute_step env st).success = true) →
    executeSteps env hooks steps session evs =
      ({ session with
         steps_completed := session.steps_completed ++
           steps.map (fun st => (execute_step env st).step_id)
         outputs := session.outputs ++
           steps.map (fun st => ((execute_step env st).step_id,
             (execute_step env st).output)) },
       evs ++ steps.map (fun st => .stepAttempt (execute_step env st).step_id))
  | [], session, evs, _ => by
      simp [executeSteps]
  | step :: rest, session, evs, hall => by
      have hs : (execute_step env step).success = true := hall step (by simp)
      rw [executeSteps, if_pos hs,
        executeSteps_all_success env hooks rest _ _
          (fun st hst => hall st (by simp [hst]))]
      simp [List.append_assoc]

theorem executeSteps_clear (env : Env) (hooks : Hooks) :
    ∀ (steps : List Step) (s : Session) (evs evs' : List Event),
    evs'.map eraseRaised = evs.map eraseRaised →
    (executeSteps env (clearRaises hooks) steps s evs').1
      = (executeSteps env hooks steps s evs).1 ∧
    ((executeSteps env (clearRaises hooks) steps s evs').2).map eraseRaised
      = ((executeSteps env hooks steps s evs).2).map eraseRaised
  | [], _, evs, evs', h => by
      simpa [executeSteps] using h
  | step :: rest, s, evs, evs', h => by
      cases hs : (execute_step env step).success with
      | false =>
          rw [executeSteps, executeSteps,
            if_neg (by rw [hs]; simp), if_neg (by rw [hs]; simp)]
          refine ⟨rfl, ?_⟩
          simp [h, run_hooks, clearRaises, eraseRaised, List.map_map,
            Function.comp]
      | true =>
          rw [executeSteps, executeSteps, if_pos hs, if_pos hs]
          exact executeSteps_clear env hooks rest _ _ _
            (by simp [h, eraseRaised])

theorem executeSteps_trace_append (env : Env) (hooks : Hooks) :
    ∀ (steps : List Step) (s : Session) (evs : List Event),
    ∃ extra, (executeSteps env hooks steps s evs).2 = evs ++ extra
  | [], _, evs => ⟨[], by simp [executeSteps]⟩
  | step :: rest, s, evs => by
      cases hs : (execute_step env step).success with
      | false =>
          rw [executeSteps, if_neg (by rw [hs]; simp)]
          exact ⟨_, rfl⟩
      | true =>
          rw [executeSteps, if_pos hs]
          obtain ⟨extra, hx⟩ := executeSteps_trace_append env hooks rest
            { s with
              steps_completed :=
                s.steps_completed ++ [(execute_step env step).step_id]
              outputs := s.outputs ++
                [((execute_step env step).step_id,
                  (execute_step env step).output)] }
            (evs ++ [.stepAttempt (execute_step env step).step_id])
          exact ⟨[.stepAttempt (execute_step env step).step_id] ++ extra,
            by rw [hx, List.append_assoc]⟩

theorem executeSteps_hookSet_mem (env : Env) (hooks : Hooks) :
    ∀ (steps : List Step) (s : Session) (evs : List Event)
      (e st : String) (raised : List Bool),
    Event.hookSet e st raised ∈ (executeSteps env hooks steps s evs).2 →
    Event.hookSet e st raised ∈ evs ∨
      (e = "on_error" ∧ raised = hooks.on_error.map (·.raises))
  | [], _, evs, e, st, raised => by
      rw [executeSteps]
      exact fun h => Or.inl h
  | step :: rest, s, evs, e, st, raised => by
      cases hs : (execute_step env step).success with
      | false =>
          rw [executeSteps, if_neg (by rw [hs]; simp)]
          intro hmem
          rw [List.mem_append] at hmem
          rcases hmem with hin | hnew
          · exact Or.inl hin
          · simp [run_hooks] at hnew
            rcases hnew with ⟨he, _, hr⟩
            exact Or.inr ⟨he, hr⟩
      | true =>
          rw [executeSteps, if_pos hs]
          intro hmem
          rcases executeSteps_hookSet_mem env hooks rest _ _ e st raised hmem
            with hin | hr
          · rw [List.mem_append] at hin
            rcases hin with hin | hbad
            · exact Or.inl hin
            · simp at hbad
          · exact Or.inr hr

end Spec2Proof

namespace Spec2Proof

/-- C3: for every complexity in [1,10], every task description, and every
value of `has_matching_skill`, `select` follows the fixed-priority decision
procedure: complexity ≤ 2 → Prompt-Enhancement; complexity ∈ [3,5] with a
matching skill → Skill-Reuse, without → Plan-Review; complexity ≥ 6 →
Lead-Member. -/
theorem C3_select_decision_procedure (complexity : Int) (d : String)
    (h : Option Bool) (h1 : 1 ≤ complexity) (h10 : complexity ≤ 10) :
    (complexity ≤ 2 → select complexity d h = SCENARIOS .prompt_enhancement) ∧
    (3 ≤ complexity → complexity ≤ 5 → h = some true →
      select complexity d h = SCENARIOS .skill_reuse) ∧
    (3 ≤ complexity → complexity ≤ 5 → h ≠ some true →
      select complexity d h = SCENARIOS .plan_review) ∧
    (6 ≤ complexity → select complexity d h = SCENARIOS .lead_member) := by
  refine ⟨fun hle => ?_, fun h3 h5 hs => ?_, fun h3 h5 hs => ?_, fun h6 => ?_⟩
  · simp [select, hle]
  · rw [select, if_neg (by omega), if_pos (by omega), if_pos hs]
  · rw [select, if_neg (by omega), if_pos (by omega), if_neg hs]
  · rw [select, if_neg (by omega), if_neg (by omega)]

/-- Witness for C3_select_decision_procedure: the boundary cases named in the
claim, complexity 2, 3 (with and without skill) and 6, instantiated. -/
theorem C3_select_decision_procedure_witness :
    (select 2 "t" none = SCENARIOS .prompt_enhancement) ∧
    (select 3 "t" (some true) = SCENARIOS .skill_reuse) ∧
    (select 3 "t" (some false) = SCENARIOS .plan_review) ∧
    (select 6 "t" (some true) = SCENARIOS .lead_member) ∧
    (select 6 "t" (some false) = SCENARIOS .lead_member) :=
  ⟨(C3_select_decision_procedure 2 "t" none (by decide) (by decide)).1 (by decide),
   (C3_select_decision_procedure 3 "t" (some true) (by decide) (by decide)).2.1
     (by decide) (by decide) rfl,
   (C3_select_decision_procedure 3 "t" (some false) (by decide) (by decide)).2.2.1
     (by decide) (by decide) (by decide),
   (C3_select_decision_procedure 6 "t" (some true) (by decide) (by decide)).2.2.2
     (by decide),
   (C3_select_decision_procedure 6 "t" (some false) (by decide) (by decide)).2.2.2
     (by decide)⟩

/-- C6: for every complexity in [1,10] and every flag value, `select` never
returns the Composite scenario — its result is one of the four reachable
scenarios — while `get_scenario_by_type` applied to the Composite type does
return the Composite `ScenarioInfo` with complexity_range (6,10),
requires_confirmation true, max_agents 10 and estimated_steps 7. -/
theorem C6_composite_unreachable_from_select (complexity : Int) (d : String)
    (h : Option Bool) (h1 : 1 ≤ complexity) (h10 : complexity ≤ 10) :
    (select complexity d h).scenario_type ≠ ScenarioType.composite ∧
    ((select complexity d h).scenario_type = ScenarioType.prompt_enhancement ∨
     (select complexity d h).scenario_type = ScenarioType.skill_reuse ∨
     (select complexity d h).scenario_type = ScenarioType.plan_review ∨
     (select complexity d h).scenario_type = ScenarioType.lead_member) ∧
    (∃ info, get_scenario_by_type ScenarioType.composite = some info ∧
      info.scenario_type = ScenarioType.composite ∧
      info.complexity_range = (6, 10) ∧
      info.requires_confirmation = true ∧
      info.max_agents = 10 ∧
      info.estimated_steps = 7) := by
  refine ⟨?_, ?_, SCENARIOS .composite, rfl, rfl, rfl, rfl, rfl, rfl⟩ <;>
    · unfold select
      split
      · simp [SCENARIOS]
      · split
        · split <;> simp [SCENARIOS]
        · simp [SCENARIOS]

/-- Witness for C6_composite_unreachable_from_select at complexity 7. -/
theorem C6_composite_unreachable_from_select_witness :
    (select 7 "t" none).scenario_type ≠ ScenarioType.composite :=
  (C6_composite_unreachable_from_select 7 "t" none (by decide) (by decide)).1

/-- C1 counterexample: creating a session with three subtasks on a fresh
store and calling `complete_task` once for each of the three tasks leaves
`completed_count = 3` but the stored session `status` column equal to
`'running'`, not `'completed'` — `complete_task` never updates the status
column. -/
theorem C1_counterexample :
    completedOf c1Final 0 = some 3 ∧
    statusOf c1Final 0 = some "running" ∧
    statusOf c1Final 0 ≠ some "completed" := by decide

/-- C1 amended: after completing each subtask of a session exactly once (in
any order), the session row has `completed_count = subtask_count`, so the
status *derived* from the counter (completed when `completed_count ==
subtask_count`) is `'completed'`; the stored `status` column, however,
remains `'running'`, because `complete_task` only increments the counter
and never writes the status column. -/
theorem C1_completion_counter_and_derived_status (store : SwarmStore)
    (main : String) (l : List Subtask) (L : List (Nat × String))
    (hwf : WFStore store)
    (hperm : (L.map Prod.fst).Perm (List.range' (store.nextId + 1) l.length)) :
    ∃ row, sessionRowOf (complete_tasks (create_swarm_session store main l).2 L)
        (create_swarm_session store main l).1 = some row
      ∧ row.completed_count = l.length
      ∧ row.subtask_count = l.length
      ∧ specDerivedStatus row = "completed"
      ∧ row.status = "running" := by
  have hcount : L.countP (fun pr : Nat × String =>
      belongsTo (create_swarm_session store main l).2 store.nextId pr.1)
      = l.length := by
    have hb : (fun pr : Nat × String =>
        belongsTo (create_swarm_session store main l).2 store.nextId pr.1)
        = fun pr : Nat × String =>
            decide (store.nextId + 1 ≤ pr.1 ∧
              pr.1 < store.nextId + 1 + l.length) := by
      funext pr
      exact belongsTo_create store main l hwf pr.1
    rw [hb]
    have hc := countP_range_perm (store.nextId + 1) l.length
      (L.map Prod.fst) hperm
    rw [List.countP_map] at hc
    exact hc
  have h1 : (create_swarm_session store main l).1 = store.nextId := rfl
  rw [h1, sessionRowOf_complete_tasks, sessionRowOf_create store main l hwf,
      Option.map_some']
  refine ⟨_, rfl, ?_, rfl, ?_, rfl⟩
  · dsimp only
    rw [hcount]
    omega
  · dsimp only [specDerivedStatus]
    rw [hcount]
    simp

/-- Witness for C1_completion_counter_and_derived_status: three subtasks on
a fresh store, completed in creation order. -/
theorem C1_completion_counter_and_derived_status_witness :
    ∃ row, sessionRowOf
        (complete_tasks (create_swarm_session SwarmStore.empty "main" c1Subtasks).2
          [(1, "r1"), (2, "r2"), (3, "r3")])
        (create_swarm_session SwarmStore.empty "main" c1Subtasks).1 = some row
      ∧ row.completed_count = c1Subtasks.length
      ∧ row.subtask_count = c1Subtasks.length
      ∧ specDerivedStatus row = "completed"
      ∧ row.status = "running" :=
  C1_completion_counter_and_derived_status SwarmStore.empty "main" c1Subtasks
    [(1, "r1"), (2, "r2"), (3, "r3")]
    (by refine ⟨?_, ?_, ?_⟩ <;> simp [SwarmStore.empty]) (by decide)

/-- C2 counterexample: on a session with a single subtask, calling
`complete_task` twice with the same task id increments the parent's
`completed_count` to 2 while `subtask_count = 1`, violating both the
`completed_count ≤ subtask_count` invariant and the at-most-once
accounting the claim asserts. -/
theorem C2_counterexample :
    completedOf c2Final 0 = some 2 ∧
    (sessionRowOf c2Final 0).map (·.subtask_count) = some 1 ∧
    ¬ (2 ≤ 1) := by decide

/-- C2 amended: `complete_task` increments the parent's counter once per
*call* on an existing task (there is no duplicate-completion guard), so
`completed_count ≤ subtask_count` is guaranteed only when the task ids
across the `complete_task` calls are pairwise distinct; duplicate calls for
the same task id double-increment the counter. -/
theorem C2_distinct_completions_bound (store : SwarmStore) (main : String)
    (l : List Subtask) (L : List (Nat × String)) (hwf : WFStore store)
    (hnd : (L.map Prod.fst).Nodup) :
    ∃ c, completedOf (complete_tasks (create_swarm_session store main l).2 L)
        (create_swarm_session store main l).1 = some c ∧ c ≤ l.length := by
  have hc : L.countP (fun pr : Nat × String =>
      decide (store.nextId + 1 ≤ pr.1 ∧ pr.1 < store.nextId + 1 + l.length))
      ≤ l.length := by
    have h := countP_nodup_le (store.nextId + 1) l.length (L.map Prod.fst) hnd
    rw [List.countP_map] at h
    exact h
  have hb : (fun pr : Nat × String =>
      belongsTo (create_swarm_session store main l).2 store.nextId pr.1)
      = fun pr : Nat × String =>
          decide (store.nextId + 1 ≤ pr.1 ∧
            pr.1 < store.nextId + 1 + l.length) := by
    funext pr
    exact belongsTo_create store main l hwf pr.1
  have h1 : (create_swarm_session store main l).1 = store.nextId := rfl
  rw [h1]
  unfold completedOf
  rw [sessionRowOf_complete_tasks, sessionRowOf_create store main l hwf,
      Option.map_some', Option.map_some']
  refine ⟨_, rfl, ?_⟩
  dsimp only
  rw [hb]
  omega

/-- C4: executing a workflow whose step list is [A succeeds, B fails, C…]
is fail-fast: A is recorded in `steps_completed` with its output, B in
`steps_failed` with its error payload, no later step is ever attempted, the
session ends `failed`, the `on_error` and `post_execute` hook sets each run
exactly once (`on_success` never), the session is persisted once, and the
summary reports failure.  The trace equation pins the whole observable
run. -/
theorem C4_fail_fast (env : Env) (hooks : Hooks) (sid : String)
    (A B : Step) (rest : List Step)
    (hA : (execute_step env A).success = true)
    (hB : (execute_step env B).success = false) :
    execute_workflow env hooks (create_session sid (A :: B :: rest)) =
      { summary := { success := false, session_id := sid, status := "failed",
                     steps_completed := 1, steps_failed := 1 }
        session := { id := sid, workflow_steps := A :: B :: rest,
                     status := "failed",
                     steps_completed := [stepId A],
                     steps_failed := [stepId B],
                     outputs := [(stepId A, (execute_step env A).output)],
                     errors := [(stepId B, (execute_step env B).error)],
                     end_time := none }
        trace := [.hookSet "pre_execute" "created" (hooks.pre_execute.map (·.raises)),
                  .stepAttempt (stepId A),
                  .stepAttempt (stepId B),
                  .hookSet "on_error" "failed" (hooks.on_error.map (·.raises)),
                  .saved "failed",
                  .hookSet "post_execute" "failed"
                    (hooks.post_execute.map (·.raises))] } ∧
    attempts (execute_workflow env hooks
        (create_session sid (A :: B :: rest))).trace = [stepId A, stepId B] ∧
    countHookSet (execute_workflow env hooks
        (create_session sid (A :: B :: rest))).trace "on_error" = 1 ∧
    countHookSet (execute_workflow env hooks
        (create_session sid (A :: B :: rest))).trace "on_success" = 0 ∧
    countHookSet (execute_workflow env hooks
        (create_session sid (A :: B :: rest))).trace "post_execute" = 1 ∧
    countSaved (execute_workflow env hooks
        (create_session sid (A :: B :: rest))).trace = 1 := by
  have hrun : execute_workflow env hooks (create_session sid (A :: B :: rest)) =
      { summary := { success := false, session_id := sid, status := "failed",
                     steps_completed := 1, steps_failed := 1 }
        session := { id := sid, workflow_steps := A :: B :: rest,
                     status := "failed",
                     steps_completed := [stepId A],
                     steps_failed := [stepId B],
                     outputs := [(stepId A, (execute_step env A).output)],
                     errors := [(stepId B, (execute_step env B).error)],
                     end_time := none }
        trace := [.hookSet "pre_execute" "created" (hooks.pre_execute.map (·.raises)),
                  .stepAttempt (stepId A),
                  .stepAttempt (stepId B),
                  .hookSet "on_error" "failed" (hooks.on_error.map (·.raises)),
                  .saved "failed",
                  .hookSet "post_execute" "failed"
                    (hooks.post_execute.map (·.raises))] } := by
    unfold execute_workflow create_session
    rw [executeSteps, if_pos hA, executeSteps, if_neg (by rw [hB]; simp)]
    rw [finalize, if_neg (by simp)]
    simp [run_hooks, execute_step_step_id]
  refine ⟨hrun, ?_, ?_, ?_, ?_, ?_⟩ <;>
    rw [hrun] <;> simp [attempts, countHookSet, countSaved]

/-- Witness for C4_fail_fast: a succeeding `notify` step followed by a step
with an unknown action kind, with one further step that is never reached. -/
theorem C4_fail_fast_witness :
    execute_workflow falseEnv {} (create_session "w" [okStep, failStep, okStep]) =
      { summary := { success := false, session_id := "w", status := "failed",
                     steps_completed := 1, steps_failed := 1 }
        session := { id := "w", workflow_steps := [okStep, failStep, okStep],
                     status := "failed",
                     steps_completed := [stepId okStep],
                     steps_failed := [stepId failStep],
                     outputs := [(stepId okStep,
                       (execute_step falseEnv okStep).output)],
                     errors := [(stepId failStep,
                       (execute_step falseEnv failStep).error)],
                     end_time := none }
        trace := [.hookSet "pre_execute" "created" [],
                  .stepAttempt (stepId okStep),
                  .stepAttempt (stepId failStep),
                  .hookSet "on_error" "failed" [],
                  .saved "failed",
                  .hookSet "post_execute" "failed" []] } :=
  ((C4_fail_fast falseEnv {} "w" okStep failStep [okStep]
    (by decide) (by decide)).1)

/-- C5: when every step of the session succeeds, the session ends
`completed` with every step id recorded in `steps_completed` together with
its output, an end timestamp is recorded, the `on_success` and
`post_execute` hook sets each run exactly once, `on_error` never runs, the
session is persisted once, and the returned summary has `success = true`.
The trace equation pins the whole observable run. -/
theorem C5_all_success (env : Env) (hooks : Hooks) (sid : String)
    (steps : List Step)
    (hall : ∀ st ∈ steps, (execute_step env st).success = true) :
    execute_workflow env hooks (create_session sid steps) =
      { summary := { success := true, session_id := sid, status := "completed",
                     steps_completed := steps.length, steps_failed := 0 }
        session := { id := sid, workflow_steps := steps,
                     status := "completed",
                     steps_completed := steps.map stepId,
                     steps_failed := [],
                     outputs := steps.map (fun st =>
                       (stepId st, (execute_step env st).output)),
                     errors := [],
                     end_time := some env.nowStr }
        trace := [.hookSet "pre_execute" "created"
                    (hooks.pre_execute.map (·.raises))] ++
          steps.map (fun st => .stepAttempt (stepId st)) ++
          [.hookSet "on_success" "completed" (hooks.on_success.map (·.raises)),
           .saved "completed",
           .hookSet "post_execute" "completed"
             (hooks.post_execute.map (·.raises))] } ∧
    countHookSet (execute_workflow env hooks
        (create_session sid steps)).trace "on_success" = 1 ∧
    countHookSet (execute_workflow env hooks
        (create_session sid steps)).trace "on_error" = 0 ∧
    countHookSet (execute_workflow env hooks
        (create_session sid steps)).trace "post_execute" = 1 ∧
    countSaved (execute_workflow env hooks
        (create_session sid steps)).trace = 1 := by
  have hid : (fun st => (execute_step env st).step_id) = stepId := by
    funext st
    exact execute_step_step_id env st
  have hrun : execute_workflow env hooks (create_session sid steps) =
      { summary := { success := true, session_id := sid, status := "completed",
                     steps_completed := steps.length, steps_failed := 0 }
        session := { id := sid, workflow_steps := steps,
                     status := "completed",
                     steps_completed := steps.map stepId,
                     steps_failed := [],
                     outputs := steps.map (fun st =>
                       (stepId st, (execute_step env st).output)),
                     errors := [],
                     end_time := some env.nowStr }
        trace := [.hookSet "pre_execute" "created"
                    (hooks.pre_execute.map (·.raises))] ++
          steps.map (fun st => .stepAttempt (stepId st)) ++
          [.hookSet "on_success" "completed" (hooks.on_success.map (·.raises)),
           .saved "completed",
           .hookSet "post_execute" "completed"
             (hooks.post_execute.map (·.raises))] } := by
    unfold execute_workflow create_session
    rw [executeSteps_all_success env hooks steps _ _ hall]
    rw [finalize, if_pos (by simp)]
    simp [run_hooks, execute_step_step_id, hid]
  refine ⟨hrun, ?_, ?_, ?_, ?_⟩ <;>
    rw [hrun] <;>
    simp [countHookSet, countSaved, List.countP_append, List.countP_map]

/-- Witness for C5_all_success: two succeeding `notify` steps. -/
theorem C5_all_success_witness :
    execute_workflow falseEnv {} (create_session "w" [okStep, okStep]) =
      { summary := { success := true, session_id := "w", status := "completed",
                     steps_completed := 2, steps_failed := 0 }
        session := { id := "w", workflow_steps := [okStep, okStep],
                     status := "completed",
                     steps_completed := [stepId okStep, stepId okStep],
                     steps_failed := [],
                     outputs := [(stepId okStep,
                         (execute_step falseEnv okStep).output),
                       (stepId okStep, (execute_step falseEnv okStep).output)],
                     errors := [],
                     end_time := some falseEnv.nowStr }
        trace := [.hookSet "pre_execute" "created" [],
                  .stepAttempt (stepId okStep),
                  .stepAttempt (stepId okStep),
                  .hookSet "on_success" "completed" [],
                  .saved "completed",
                  .hookSet "post_execute" "completed" []] } := by
  have h := (C5_all_success falseEnv {} "w" [okStep, okStep]
    (by intro st hst; simp at hst; rw [hst]; decide)).1
  simpa using h

/-- C7: hook callback exceptions are caught inside `_run_hooks`: replacing
every raising callback by a non-raising one (same callbacks otherwise)
changes neither the final session record nor the returned summary, and the
event trace is identical up to the per-callback raise flags — same sweeps,
same observed statuses, same number of callbacks invoked per sweep, same
persistence — so a raising callback never aborts the run, never alters the
determined status, and never prevents the remaining callbacks or the later
lifecycle actions.  Moreover every sweep in the trace invokes the full
registered callback list of its event. -/
theorem C7_hook_exceptions_isolated (env : Env) (hooks : Hooks)
    (session : Session) :
    (execute_workflow env (clearRaises hooks) session).session
      = (execute_workflow env hooks session).session ∧
    (execute_workflow env (clearRaises hooks) session).summary
      = (execute_workflow env hooks session).summary ∧
    ((execute_workflow env (clearRaises hooks) session).trace).map eraseRaised
      = ((execute_workflow env hooks session).trace).map eraseRaised ∧
    ∀ e st raised,
      Event.hookSet e st raised ∈ (execute_workflow env hooks session).trace →
      raised = (hooksFor hooks e).map (·.raises) := by
  have hpre : ([run_hooks "pre_execute" (clearRaises hooks).pre_execute
        session]).map eraseRaised
      = ([run_hooks "pre_execute" hooks.pre_execute session]).map
          eraseRaised := by
    simp [run_hooks, clearRaises, eraseRaised, List.map_map, Function.comp]
  obtain ⟨hsess, htr⟩ := executeSteps_clear env hooks session.workflow_steps
    { session with status := "running" } _ _ hpre
  have hmem2 : ∀ (e st : String) (raised : List Bool),
      Event.hookSet e st raised ∈
        (executeSteps env hooks session.workflow_steps
          { session with status := "running" }
          [run_hooks "pre_execute" hooks.pre_execute session]).2 →
      raised = (hooksFor hooks e).map (·.raises) := by
    intro e st raised hm
    rcases executeSteps_hookSet_mem env hooks _ _ _ e st raised hm
      with hin | ⟨he, hr⟩
    · simp [run_hooks] at hin
      rcases hin with ⟨he, _, hr⟩
      subst he
      rw [hr]
      rfl
    · subst he
      rw [hr]
      rfl
  unfold execute_workflow
  by_cases hrunning :
      (executeSteps env hooks session.workflow_steps
        { session with status := "running" }
        [run_hooks "pre_execute" hooks.pre_execute session]).1.status
        = "running"
  · rw [finalize, finalize, if_pos (by rw [hsess]; exact hrunning),
      if_pos hrunning]
    refine ⟨by rw [hsess], by rw [hsess], ?_, ?_⟩
    · simp only [List.map_append]
      rw [htr, hsess]
      simp [run_hooks, clearRaises, eraseRaised, List.map_map, Function.comp]
    · intro e st raised hm
      simp only [List.mem_append, List.mem_singleton] at hm
      rcases hm with (hm | hm) | hm
      · rcases hm with hm | hm
        · exact hmem2 e st raised hm
        · simp [run_hooks] at hm
          rcases hm with ⟨he, _, hr⟩
          subst he
          rw [hr]
          rfl
      · cases hm
      · simp [run_hooks] at hm
        rcases hm with ⟨he, _, hr⟩
        subst he
        rw [hr]
        rfl
  · rw [finalize, finalize, if_neg (by rw [hsess]; exact hrunning),
      if_neg hrunning]
    refine ⟨by rw [hsess], by rw [hsess], ?_, ?_⟩
    · simp only [List.map_append]
      rw [htr, hsess]
      simp [run_hooks, clearRaises, eraseRaised, List.map_map, Function.comp]
    · intro e st raised hm
      simp only [List.mem_append, List.mem_singleton] at hm
      rcases hm with (hm | hm) | hm
      · exact hmem2 e st raised hm
      · cases hm
      · simp [run_hooks] at hm
        rcases hm with ⟨he, _, hr⟩
        subst he
        rw [hr]
        rfl

/-- Witness for C7_hook_exceptions_isolated: a raising pre_execute callback
leaves the final session of a one-step run unchanged. -/
theorem C7_hook_exceptions_isolated_witness :
    (execute_workflow falseEnv
        (clearRaises { pre_execute := [{ raises := true }] })
        (create_session "w" [okStep])).session
      = (execute_workflow falseEnv { pre_execute := [{ raises := true }] }
        (create_session "w" [okStep])).session :=
  (C7_hook_exceptions_isolated falseEnv { pre_execute := [{ raises := true }] }
    (create_session "w" [okStep])).1

/-- C8 counterexample: with a freshly created session (status `created`),
the `pre_execute` hook sweep — the first event of the run — observes the
session status `'created'`, not `'running'`: the source runs the
`pre_execute` hooks *before* the `session["status"] = "running"`
assignment. -/
theorem C8_counterexample :
    (execute_workflow falseEnv { pre_execute := [{ raises := false }] }
        (create_session "s" [])).trace.head?
      = some (.hookSet "pre_execute" "created" [false]) ∧
    ("created" : String) ≠ "running" := by
  constructor
  · rfl
  · decide

/-- C8 amended: `execute_workflow` runs the `pre_execute` hook set first,
while the session still carries its pre-run status — `'created'` for a
session produced by `create_session` — and only afterwards transitions the
status to `'running'`; every pre_execute callback therefore observes status
`'created'`, not `'running'`. -/
theorem C8_pre_hooks_observe_pre_run_status (env : Env) (hooks : Hooks)
    (session : Session) (h : session.status = "created") :
    (execute_workflow env hooks session).trace.head?
      = some (.hookSet "pre_execute" "created"
          (hooks.pre_execute.map (·.raises))) := by
  unfold execute_workflow
  obtain ⟨extra, hx⟩ := executeSteps_trace_append env hooks
    session.workflow_steps { session with status := "running" }
    [run_hooks "pre_execute" hooks.pre_execute session]
  rw [finalize]
  split
  · dsimp only
    rw [hx]
    simp [run_hooks, h]
  · dsimp only
    rw [hx]
    simp [run_hooks, h]

/-- Witness for C8_pre_hooks_observe_pre_run_status: one registered
pre_execute callback on a one-step workflow. -/
theorem C8_pre_hooks_observe_pre_run_status_witness :
    (execute_workflow falseEnv { pre_execute := [{ raises := false }] }
        (create_session "s" [okStep])).trace.head?
      = some (.hookSet "pre_execute" "created" [false]) :=
  C8_pre_hooks_observe_pre_run_status falseEnv
    { pre_execute := [{ raises := false }] } (create_session "s" [okStep]) rfl

/-- C10: `execute_step` on a `verify` step whose params carry a `type`
other than `file_exists` succeeds vacuously: the result has `success =
true`, `output = None`, `error = None`, and is independent of the
environment — in particular of the file-existence oracle, which only the
default `file_exists` verify type consults. -/
theorem C10_verify_unknown_type_succeeds (env env' : Env) (step : Step)
    (t : String) (hact : step.action = some "verify")
    (ht : step.params.type = some t) (hne : t ≠ "file_exists") :
    execute_step env step =
      { step_id := stepId step, action := "verify", success := true,
        output := none, error := none } ∧
    execute_step env step = execute_step env' step := by
  have hstep : ∀ e : Env, execute_step e step =
      { step_id := stepId step, action := "verify", success := true,
        output := none, error := none } := by
    intro e
    unfold execute_step
    rw [hact]
    simp [ht, hne]
  exact ⟨hstep env, by rw [hstep env, hstep env']⟩

/-- Witness for C10_verify_unknown_type_succeeds: a `verify` step with
`type = "custom"` under two environments whose file-existence oracles
disagree on every path. -/
theorem C10_verify_unknown_type_succeeds_witness :
    (execute_step falseEnv verifyStep =
      { step_id := stepId verifyStep, action := "verify", success := true,
        output := none, error := none }) ∧
    execute_step falseEnv verifyStep = execute_step trueEnv verifyStep :=
  C10_verify_unknown_type_succeeds falseEnv trueEnv verifyStep "custom"
    rfl rfl (by decide)

/-- C9: `create_swarm_session` returns a session id under which the store
holds exactly one session row (`subtask_count = len(subtasks)`,
`completed_count = 0`, status `running`) plus exactly one `pending` task
row per subtask, with `parent_id` the returned id and the subtask as
payload; `get_parallel_subtasks` immediately afterwards returns one view
per subtask carrying its task id, worker type, goal and context
(`mkViews`); and after completing any one task a subsequent
`get_parallel_subtasks` returns exactly the remaining pending tasks: the
completed id is gone, every returned entry was in the original listing, and
the length drops by exactly 1. -/
theorem C9_create_list_complete (store : SwarmStore) (main : String)
    (l : List Subtask) (hwf : WFStore store) :
    ((create_swarm_session store main l).2.swarm_sessions.filter
        fun s => s.session_id = (create_swarm_session store main l).1)
      = [{ session_id := store.nextId, main_task := main,
           subtask_count := l.length, completed_count := 0,
           status := "running", created_at := "now" }] ∧
    ((create_swarm_session store main l).2.tasks.filter
        fun t => t.parent_id = some (create_swarm_session store main l).1)
      = mkTaskRows store.nextId (store.nextId + 1) l ∧
    (mkTaskRows store.nextId (store.nextId + 1) l).length = l.length ∧
    (mkTaskRows store.nextId (store.nextId + 1) l).map (·.payload) = l ∧
    (∀ t ∈ mkTaskRows store.nextId (store.nextId + 1) l,
      t.status = "pending" ∧ t.parent_id = some store.nextId) ∧
    get_parallel_subtasks (create_swarm_session store main l).2
        (create_swarm_session store main l).1
      = mkViews (store.nextId + 1) l ∧
    (mkViews (store.nextId + 1) l).length = l.length ∧
    ∀ i, i < l.length → ∀ rr : String,
      get_parallel_subtasks
          (complete_task (create_swarm_session store main l).2
            (store.nextId + 1 + i) rr)
          (create_swarm_session store main l).1
        = ((mkTaskRows store.nextId (store.nextId + 1) l).filter
            fun t => ¬ t.task_id = store.nextId + 1 + i).map taskView ∧
      (get_parallel_subtasks
          (complete_task (create_swarm_session store main l).2
            (store.nextId + 1 + i) rr)
          (create_swarm_session store main l).1).length = l.length - 1 ∧
      ∀ v ∈ get_parallel_subtasks
          (complete_task (create_swarm_session store main l).2
            (store.nextId + 1 + i) rr)
          (create_swarm_session store main l).1,
        ¬ v.task_id = store.nextId + 1 + i ∧
        v ∈ get_parallel_subtasks (create_swarm_session store main l).2
          (create_swarm_session store main l).1 := by
  have h1 : (create_swarm_session store main l).1 = store.nextId := rfl
  have h2 : (create_swarm_session store main l).2.tasks
      = store.tasks ++ mkTaskRows store.nextId (store.nextId + 1) l := rfl
  have h3 : (create_swarm_session store main l).2.swarm_sessions
      = store.swarm_sessions ++
        [{ session_id := store.nextId, main_task := main,
           subtask_count := l.length, completed_count := 0,
           status := "running", created_at := "now" }] := rfl
  have holdnil : (store.tasks.filter
      fun t => t.parent_id = some store.nextId) = [] := by
    rw [List.filter_eq_nil_iff]
    intro t ht
    simp only [decide_eq_true_eq]
    intro hp
    exact absurd (hwf.2.1 t ht store.nextId hp) (by omega)
  have holdnil2 : (store.tasks.filter
      fun t => t.parent_id = some store.nextId ∧ t.status = "pending") = [] := by
    rw [List.filter_eq_nil_iff]
    intro t ht
    simp only [decide_eq_true_eq, not_and]
    intro hp
    exact absurd (hwf.2.1 t ht store.nextId hp) (by omega)
  have hlist : get_parallel_subtasks (create_swarm_session store main l).2
      store.nextId = mkViews (store.nextId + 1) l := by
    unfold get_parallel_subtasks
    rw [h2, List.filter_append, holdnil2,
      filter_pending_mkTaskRows store.nextId (store.nextId + 1) l,
      List.nil_append, map_taskView_mkTaskRows]
  rw [h1]
  refine ⟨?_, ?_, length_mkTaskRows store.nextId (store.nextId + 1) l,
    mkTaskRows_map_payload store.nextId (store.nextId + 1) l,
    ?_, hlist, length_mkViews (store.nextId + 1) l, ?_⟩
  · rw [h3, List.filter_append]
    have : (store.swarm_sessions.filter
        fun s => s.session_id = store.nextId) = [] := by
      rw [List.filter_eq_nil_iff]
      intro s hs
      simp only [decide_eq_true_eq]
      exact Nat.ne_of_lt (hwf.2.2 s hs)
    rw [this, List.nil_append]
    simp
  · rw [h2, List.filter_append, holdnil, List.nil_append,
      List.filter_eq_self]
    intro t ht
    obtain ⟨_, hp, _, _⟩ := mkTaskRows_fields store.nextId (store.nextId + 1)
      l t ht
    simp [hp]
  · intro t ht
    obtain ⟨hs, hp, _, _⟩ := mkTaskRows_fields store.nextId (store.nextId + 1)
      l t ht
    exact ⟨hs, hp⟩
  · intro i hi rr
    have hnew : get_parallel_subtasks
        (complete_task (create_swarm_session store main l).2
          (store.nextId + 1 + i) rr) store.nextId
        = ((mkTaskRows store.nextId (store.nextId + 1) l).filter
            fun t => ¬ t.task_id = store.nextId + 1 + i).map taskView := by
      unfold get_parallel_subtasks
      rw [complete_task_tasks, h2, List.map_append]
      have hold : store.tasks.map (completeRow (store.nextId + 1 + i) rr)
          = store.tasks := by
        rw [List.map_congr_left, List.map_id]
        intro t ht
        exact completeRow_ne _ _ _ (by have := hwf.1 t ht; omega)
      rw [hold, List.filter_append, holdnil2, List.nil_append,
        completed_filter_mkTaskRows store.nextId rr l (store.nextId + 1) i hi]
    refine ⟨hnew, ?_, ?_⟩
    · rw [hnew, List.length_map,
        length_filter_ne_mkTaskRows store.nextId l (store.nextId + 1) i hi]
    · intro v hv
      rw [hnew] at hv
      obtain ⟨t, ht, hvt⟩ := List.mem_map.mp hv
      obtain ⟨htm, htne⟩ := List.mem_filter.mp ht
      constructor
      · rw [← hvt]
        simpa using htne
      · rw [hlist, ← map_taskView_mkTaskRows store.nextId (store.nextId + 1) l]
        exact List.mem_map.mpr ⟨t, htm, hvt⟩

/-- Witness for C9_create_list_complete: three subtasks on a fresh store. -/
theorem C9_create_list_complete_witness :
    ((create_swarm_session SwarmStore.empty "main" c1Subtasks).2.swarm_sessions.filter
        fun s => s.session_id = (create_swarm_session SwarmStore.empty "main" c1Subtasks).1)
      = [{ session_id := SwarmStore.empty.nextId, main_task := "main",
           subtask_count := c1Subtasks.length, completed_count := 0,
           status := "running", created_at := "now" }] ∧
    ((create_swarm_session SwarmStore.empty "main" c1Subtasks).2.tasks.filter
        fun t => t.parent_id = some (create_swarm_session SwarmStore.empty "main" c1Subtasks).1)
      = mkTaskRows SwarmStore.empty.nextId (SwarmStore.empty.nextId + 1) c1Subtasks ∧
    (mkTaskRows SwarmStore.empty.nextId (SwarmStore.empty.nextId + 1) c1Subtasks).length
      = c1Subtasks.length ∧
    (mkTaskRows SwarmStore.empty.nextId (SwarmStore.empty.nextId + 1) c1Subtasks).map
        (·.payload) = c1Subtasks ∧
    (∀ t ∈ mkTaskRows SwarmStore.empty.nextId (SwarmStore.empty.nextId + 1) c1Subtasks,
      t.status = "pending" ∧ t.parent_id = some SwarmStore.empty.nextId) ∧
    get_parallel_subtasks (create_swarm_session SwarmStore.empty "main" c1Subtasks).2
        (create_swarm_session SwarmStore.empty "main" c1Subtasks).1
      = mkViews (SwarmStore.empty.nextId + 1) c1Subtasks ∧
    (mkViews (SwarmStore.empty.nextId + 1) c1Subtasks).length = c1Subtasks.length ∧
    ∀ i, i < c1Subtasks.length → ∀ rr : String,
      get_parallel_subtasks
          (complete_task (create_swarm_session SwarmStore.empty "main" c1Subtasks).2
            (SwarmStore.empty.nextId + 1 + i) rr)
          (create_swarm_session SwarmStore.empty "main" c1Subtasks).1
        = ((mkTaskRows SwarmStore.empty.nextId (SwarmStore.empty.nextId + 1) c1Subtasks).filter
            fun t => ¬ t.task_id = SwarmStore.empty.nextId + 1 + i).map taskView ∧
      (get_parallel_subtasks
          (complete_task (create_swarm_session SwarmStore.empty "main" c1Subtasks).2
            (SwarmStore.empty.nextId + 1 + i) rr)
          (create_swarm_session SwarmStore.empty "main" c1Subtasks).1).length
        = c1Subtasks.length - 1 ∧
      ∀ v ∈ get_parallel_subtasks
          (complete_task (create_swarm_session SwarmStore.empty "main" c1Subtasks).2
            (SwarmStore.empty.nextId + 1 + i) rr)
          (create_swarm_session SwarmStore.empty "main" c1Subtasks).1,
        ¬ v.task_id = SwarmStore.empty.nextId + 1 + i ∧
        v ∈ get_parallel_subtasks
          (create_swarm_session SwarmStore.empty "main" c1Subtasks).2
          (create_swarm_session SwarmStore.empty "main" c1Subtasks).1 :=
  C9_create_list_complete SwarmStore.empty "main" c1Subtasks
    (by refine ⟨?_, ?_, ?_⟩ <;> simp [SwarmStore.empty])

/-- Witness for C2_distinct_completions_bound: two distinct completions out
of three subtasks. -/
theorem C2_distinct_completions_bound_witness :
    ∃ c, completedOf
        (complete_tasks (create_swarm_session SwarmStore.empty "main" c1Subtasks).2
          [(1, "a"), (2, "b")])
        (create_swarm_session SwarmStore.empty "main" c1Subtasks).1 = some c
      ∧ c ≤ c1Subtasks.length :=
  C2_distinct_completions_bound SwarmStore.empty "main" c1Subtasks
    [(1, "a"), (2, "b")]
    (by refine ⟨?_, ?_, ?_⟩ <;> simp [SwarmStore.empty]) (by decide)

end Spec2Proof
